import Mathlib

/-!
Verification of the PixivPixie concurrent fetch-filter-download pipeline.

This file shallowly embeds, in Lean 4, the parts of the repository that the
specification's testable properties talk about:

* `pixiv_pixie/utils/fp.py` — the `Q` predicate algebra (`from_lookup`,
  `get_lookup`, `field_getter`, `__invert__`, ...);
* `pixiv_pixie/utils/query_set.py` — `Q`/`QNot` and `QuerySet.order_by`;
* `pixiv_pixie/utils/task_queue.py` — `TaskQueue`, `TaskResult` and the
  worker loop;
* `pixiv_pixie/pixie.py` — `_download_one_url`, `_download_multiple_urls`,
  `_check_exist`;
* `pixiv_pixie/downloader.py` / `pixiv_pixie/queen.py` — the fetch
  pipeline (`order_by` / `limit_before` / `filter` / `limit_after` /
  `enumerate(start=1)`).

Python strings that the embedded code inspects character by character
(lookup expressions, field names) are modelled as `List Char`, so that all
definitions compute by structural recursion; Python values reached by
lookup expressions are modelled by the inductive type `PyVal`.
Machine-level aspects (threads, wall-clock time, the actual HTTP transport
and the GIF codec) are modelled by explicit state passing and by abstract
outcome functions, as explained at each definition.
-/

/-- Python strings, modelled as their character lists. -/
abbrev PyStr := List Char

/-- Conversion helper used to write `PyStr` literals readably. -/
def cs (s : String) : PyStr := s.data

/-! ## Python values

Records inspected by lookup expressions are duck-typed Python objects.
`Q.field_getter` resolves a name first as an attribute and then as a
subscript; both resolution strategies amount to looking the name up in the
object's field table, so the model collapses them into one association
list.  Zero-argument method invocation and non-data attributes of builtin
types are outside the scope of the claims and are not modelled. -/

inductive PyVal where
  | pynone : PyVal
  | pyint : Int → PyVal
  | pystr : PyStr → PyVal
  | pybool : Bool → PyVal
  | pytuple : List PyVal → PyVal
  | pyobj : List (PyStr × PyVal) → PyVal

/-- Python exceptions that predicate evaluation can raise. -/
inductive PyErr where
  | lookupError : PyErr
  | typeError : PyErr
deriving DecidableEq, Repr

mutual

/-- Structural equality, modelling Python `==` (`operator.eq`) on the value
forms of `PyVal`. -/
def pyValBeq : PyVal → PyVal → Bool
  | .pynone, .pynone => true
  | .pyint a, .pyint b => a == b
  | .pystr a, .pystr b => a == b
  | .pybool a, .pybool b => a == b
  | .pytuple xs, .pytuple ys => pyListBeq xs ys
  | .pyobj xs, .pyobj ys => pyFieldsBeq xs ys
  | _, _ => false

/-- Structural equality on lists of `PyVal`. -/
def pyListBeq : List PyVal → List PyVal → Bool
  | [], [] => true
  | x :: xs, y :: ys => pyValBeq x y && pyListBeq xs ys
  | _, _ => false

/-- Structural equality on field tables. -/
def pyFieldsBeq : List (PyStr × PyVal) → List (PyStr × PyVal) → Bool
  | [], [] => true
  | (n, x) :: xs, (m, y) :: ys => n == m && pyValBeq x y && pyFieldsBeq xs ys
  | _, _ => false

end

/-! ## `fp.Q`: field getters and the lookup registry

Embedding of `pixiv_pixie/utils/fp.py`, class `Q`.  A built predicate is a
function `PyVal → Except PyErr Bool`: evaluation either returns a Boolean
or raises (Python `LookupError` / `TypeError`). -/

/-- Embedding of `str.split` on the fixed separator `Q.SEP = '__'`:
leftmost, non-overlapping occurrences of the double underscore cut the
string into segments. -/
def splitSEP : PyStr → List PyStr
  | [] => [[]]
  | '_' :: '_' :: rest => [] :: splitSEP rest
  | c :: rest =>
    match splitSEP rest with
    | [] => [[c]]
    | g :: gs => (c :: g) :: gs

/-- Default lookup used when no registered name is written,
`Q._default_lookup_name = 'eq'`. -/
def qDefaultLookupName : PyStr := cs "eq"

/-- Embedding of `Q.field_getter(name)`: fetch the field `name` from the
operand, raising `LookupError` when the operand has no such field.  The
empty name returns the identity, as in the source (`if not name`). -/
def field_getter (name : PyStr) (v : PyVal) : Except PyErr PyVal :=
  if name = [] then .ok v
  else
    match v with
    | .pyobj fields =>
      match fields.lookup name with
      | some x => .ok x
      | none => .error .lookupError
    | _ => .error .lookupError

/-- Embedding of `Q.chained_field_getter(*names)`: the field getters are
composed left to right (`reduce(F.and_then, map(cls.field_getter, names),
F.identity())`). -/
def chained_field_getter (names : List PyStr) (v : PyVal) : Except PyErr PyVal :=
  names.foldl (fun acc n => acc.bind (field_getter n)) (.ok v)

/-- The type of a registered lookup function: it receives the value reached
by the `field` part and the `param` part, and tests them (possibly raising,
as e.g. `str.startswith` does on a non-string). -/
def LookupFn : Type := PyVal → PyVal → Except PyErr Bool

/-- Lexicographic comparison of Python strings. -/
def pyStrCmp : PyStr → PyStr → Ordering
  | [], [] => .eq
  | [], _ :: _ => .lt
  | _ :: _, [] => .gt
  | a :: as_, b :: bs =>
    match compare a b with
    | .eq => pyStrCmp as_ bs
    | o => o

/-- Comparison on the ordered `PyVal` forms, used by `lt`/`le`/`gt`/`ge`.
Python comparison of an `int` with a `str` raises `TypeError`. -/
def pyValCmp : PyVal → PyVal → Except PyErr Ordering
  | .pyint a, .pyint b => .ok (compare a b)
  | .pystr a, .pystr b => .ok (pyStrCmp a b)
  | _, _ => .error .typeError

/-- Substring test on Python strings. -/
def pyStrIsInfix (t : PyStr) : PyStr → Bool
  | [] => t.isPrefixOf []
  | c :: rest => t.isPrefixOf (c :: rest) || pyStrIsInfix t rest

/-- Python `b in a`: membership in a tuple/list, substring test on
strings, key test on dicts. -/
def pyContains (a b : PyVal) : Except PyErr Bool :=
  match a with
  | .pytuple xs => .ok (xs.any (pyValBeq b))
  | .pyobj fields =>
    match b with
    | .pystr s => .ok (fields.any (fun f => f.1 == s))
    | _ => .ok false
  | .pystr s =>
    match b with
    | .pystr t => .ok (pyStrIsInfix t s)
    | _ => .error .typeError
  | _ => .error .typeError

/-- Shared body of the `range`/`inrange`/`in_range` lookups
(`low <= x <= high`, both bounds inclusive). -/
def pyInRange (a b : PyVal) : Except PyErr Bool :=
  match b with
  | .pytuple [lo, hi] =>
    (pyValCmp lo a).bind (fun o1 =>
      (pyValCmp a hi).map (fun o2 => o1 != .gt && o2 != .gt))
  | _ => .error .typeError

/-- Shared body of the `isnull`/`is_null` lookups
(`(a is None) == bool(b)`). -/
def pyIsNull (a b : PyVal) : Except PyErr Bool :=
  match b with
  | .pybool req => .ok ((pyValBeq a .pynone) == req)
  | .pynone => .ok ((pyValBeq a .pynone) == false)
  | .pyint n => .ok ((pyValBeq a .pynone) == (n != 0))
  | _ => .ok ((pyValBeq a .pynone) == true)

/-- The registered lookup functions of `fp.py` (module-level
`Q.register_lookup` calls, lines 473–520), keyed by their registered
names.  `regex`/`iregex` (regular-expression matching) and
`isinstance`/`issubclass` (class objects) exercise Python machinery that
this embedding does not model; their functions raise a model-side
`TypeError`.  No claim depends on their behaviour — only on their names
being registered. -/
def lookups : List (PyStr × LookupFn) :=
  [ (cs "eq", fun a b => .ok (pyValBeq a b)),
    (cs "exact", fun a b => .ok (pyValBeq a b)),
    (cs "ne", fun a b => .ok (!pyValBeq a b)),
    (cs "neq", fun a b => .ok (!pyValBeq a b)),
    (cs "is", fun a b => .ok (pyValBeq a b)),
    (cs "is_not", fun a b => .ok (!pyValBeq a b)),
    (cs "contains", fun a b => pyContains a b),
    (cs "in", fun a b => pyContains b a),
    (cs "lt", fun a b => (pyValCmp a b).map (fun o => o == .lt)),
    (cs "le", fun a b => (pyValCmp a b).map (fun o => o != .gt)),
    (cs "lte", fun a b => (pyValCmp a b).map (fun o => o != .gt)),
    (cs "gt", fun a b => (pyValCmp a b).map (fun o => o == .gt)),
    (cs "ge", fun a b => (pyValCmp a b).map (fun o => o != .lt)),
    (cs "gte", fun a b => (pyValCmp a b).map (fun o => o != .lt)),
    (cs "divisible_by", fun a b =>
      match a, b with
      | .pyint x, .pyint y => .ok (x % y == 0)
      | _, _ => .error .typeError),
    (cs "range", pyInRange),
    (cs "inrange", pyInRange),
    (cs "in_range", pyInRange),
    (cs "isnull", pyIsNull),
    (cs "is_null", pyIsNull),
    (cs "startswith", fun a b =>
      match a, b with
      | .pystr s, .pystr t => .ok (t.isPrefixOf s)
      | _, _ => .error .typeError),
    (cs "endswith", fun a b =>
      match a, b with
      | .pystr s, .pystr t => .ok (t.isSuffixOf s)
      | _, _ => .error .typeError),
    (cs "regex", fun _ _ => .error .typeError),
    (cs "iregex", fun _ _ => .error .typeError),
    (cs "isinstance", fun _ _ => .error .typeError),
    (cs "issubclass", fun _ _ => .error .typeError) ]

/-- Whether a name is in the comparator registry (`name in Q._lookups`). -/
def isRegisteredLookup (name : PyStr) : Bool :=
  (lookups.lookup name).isSome

/-- Configuration errors raised at predicate-construction time
(Python `ValueError`). -/
inductive ConfigErr where
  | valueError : ConfigErr
deriving DecidableEq, Repr

/-- Embedding of `Q.get_lookup(lookup_name)`: fetch a registered lookup
function by name, raising `ValueError` when the name is not registered. -/
def get_lookup (lookup_name : PyStr) : Except ConfigErr LookupFn :=
  match lookups.lookup lookup_name with
  | none => .error .valueError
  | some f => .ok f

/-- Embedding of `Q.from_lookup(lookup, param)`:

* `fields = lookup.split(cls.SEP)`;
* if the final segment is a registered lookup name it is popped and used
  as the comparator, otherwise the comparator defaults to `eq` and the
  final segment stays part of the field path;
* the resulting predicate applies the chained field getter and then the
  comparator.

Construction fails (with the `ValueError` of `get_lookup`) only if the
selected comparator name is unregistered. -/
def from_lookup (lookup : PyStr) (param : PyVal) :
    Except ConfigErr (PyVal → Except PyErr Bool) :=
  let fields := splitSEP lookup
  let chosen :=
    match fields.getLast? with
    | some last =>
      if isRegisteredLookup last then (fields.dropLast, last)
      else (fields, qDefaultLookupName)
    | none => (fields, qDefaultLookupName)
  match get_lookup chosen.2 with
  | .error e => .error e
  | .ok f => .ok (fun x => (chained_field_getter chosen.1 x).bind (fun v => f v param))

/-! ## `fp.Q` as a predicate functor: negation

`Q.__invert__` wraps a callable; predicates are Boolean-valued functions
(`Predicate.test(record) -> bool`, pure). -/

/-- Embedding of `fp.Q.__invert__`: a new predicate returning
`not self(x)`. -/
def q_invert {α : Type} (p : α → Bool) : α → Bool :=
  fun x => !(p x)

/-! ## `query_set.py`: the `Q` object tree and `order_by`

`query_set.Q` builds a tree of combinators over base lookups; `validate`
evaluates it.  The base case (`attribute_lookup` over the keyword table)
is abstracted as a Boolean predicate on the record. -/

inductive QObj (α : Type) where
  | base : (α → Bool) → QObj α
  | qnot : QObj α → QObj α
  | qand : QObj α → QObj α → QObj α
  | qor : QObj α → QObj α → QObj α

/-- Embedding of `Q.validate` / `QNot.validate` / `QAnd.validate` /
`QOr.validate` from `query_set.py`. -/
def QObj.validate {α : Type} : QObj α → α → Bool
  | .base f, x => f x
  | .qnot q, x => !(q.validate x)
  | .qand l r, x => l.validate x && r.validate x
  | .qor l r, x => l.validate x || r.validate x

/-- CPython's `list.sort(key=key, reverse=rev)`.  `list.sort` is a stable
sort, and with `reverse=True` it is the stability-preserving descending
sort; a stable sort with respect to a total preorder is unique, so
insertion sort (stable by construction) is an exact model of its output. -/
def pysort {α β : Type} [LinearOrder β] (key : α → β) (rev : Bool)
    (l : List α) : List α :=
  if rev then l.insertionSort (fun a b => key b ≤ key a)
  else l.insertionSort (fun a b => key a ≤ key b)

/-- Embedding of `QuerySet.order_by(*fields)` from `query_set.py`:

* with no fields, the data is returned unchanged;
* otherwise the materialised list is sorted once per field, iterating the
  fields in reverse; a field starting with `'-'` is stripped and sorted
  with `reverse=True`;
* each key function is `partial(_get_attribute, attribute_list=
  field.split(SEP))`; attribute resolution itself (`getattr` chains on the
  record object) is supplied as the parameter `resolve`, mapping the split
  segment list and a record to the field's value. -/
def order_by {α β : Type} [LinearOrder β] (resolve : List PyStr → α → β)
    (fields : List PyStr) (l : List α) : List α :=
  if fields = [] then l
  else
    fields.reverse.foldl
      (fun data field =>
        match field with
        | '-' :: name => pysort (resolve (splitSEP name)) true data
        | name => pysort (resolve (splitSEP name)) false data)
      l

/-! ## `task_queue.py`: task status, task results and the worker loop -/

/-- Embedding of `TaskStatus` (task_queue.py, lines 22–27). -/
inductive TaskStatus where
  | pending : TaskStatus
  | started : TaskStatus
  | failure : TaskStatus
  | success : TaskStatus
deriving DecidableEq, Repr

/-- Position of a status along the documented forward order
PENDING → STARTED → terminal. -/
def statusRank : TaskStatus → Nat
  | .pending => 0
  | .started => 1
  | .failure => 2
  | .success => 2

/-- Whether a status is terminal (SUCCESS or FAILURE). -/
def TaskStatus.isTerminal : TaskStatus → Bool
  | .failure => true
  | .success => true
  | _ => false

/-- Embedding of the mutable state of a `TaskResult` (`__init__`, lines
128–138): status starts PENDING, result/exception/last-finish start
`None`.  `ρ` is the task's return type, `ε` its exception type; the
completion timestamp (`datetime.now()`) is an abstract tick. -/
structure TaskResult (ρ ε : Type) where
  status : TaskStatus
  result : Option ρ
  exception : Option ε
  lastFinish : Option Nat
deriving DecidableEq, Repr

/-- A freshly constructed `TaskResult` (what `TaskQueue.enqueue`
returns). -/
def TaskResult.init {ρ ε : Type} : TaskResult ρ ε :=
  { status := .pending, result := none, exception := none, lastFinish := none }

/-- Embedding of `TaskResult.ready()`: `bool(self.last_finish)`. -/
def TaskResult.ready {ρ ε : Type} (r : TaskResult ρ ε) : Bool :=
  r.lastFinish.isSome

/-- Embedding of `TaskResult.successful()`: `self.exception is None`. -/
def TaskResult.successful {ρ ε : Type} (r : TaskResult ρ ε) : Bool :=
  r.exception.isNone

/-- Embedding of `TaskResult.failed()`: `self.exception is not None`. -/
def TaskResult.failed {ρ ε : Type} (r : TaskResult ρ ε) : Bool :=
  r.exception.isSome

/-- Embedding of `TaskResult._set_result`. -/
def TaskResult.set_result {ρ ε : Type} (r : TaskResult ρ ε) (v : ρ)
    (now : Nat) : TaskResult ρ ε :=
  { r with result := some v, exception := none, lastFinish := some now }

/-- Embedding of `TaskResult._set_exception`. -/
def TaskResult.set_exception {ρ ε : Type} (r : TaskResult ρ ε) (e : ε)
    (now : Nat) : TaskResult ρ ε :=
  { r with result := none, exception := some e, lastFinish := some now }

/-- The sequence of `TaskResult` states written by one pass of the worker
body (`TaskQueue._worker`, lines 110–120) executing a dequeued task whose
run ends in `outcome`:

* entry state (PENDING, from enqueue);
* `task_result._status = TaskStatus.STARTED`;
* `_set_result(result)` / `_set_exception(e)`;
* `_status = TaskStatus.SUCCESS` / `TaskStatus.FAILURE`. -/
def worker_run_states {ρ ε : Type} (outcome : Except ε ρ) (now : Nat)
    (r0 : TaskResult ρ ε) : List (TaskResult ρ ε) :=
  let r1 := { r0 with status := .started }
  match outcome with
  | .ok v =>
    let r2 := r1.set_result v now
    [r0, r1, r2, { r2 with status := .success }]
  | .error e =>
    let r2 := r1.set_exception e now
    [r0, r1, r2, { r2 with status := .failure }]

/-- The final `TaskResult` state after the worker executed the task. -/
def run_task {ρ ε : Type} (outcome : Except ε ρ) (now : Nat)
    (r : TaskResult ρ ε) : TaskResult ρ ε :=
  match outcome with
  | .ok v => { r.set_result v now with status := .success }
  | .error e => { r.set_exception e now with status := .failure }

/-- The `TaskQueue` state visible to the claims: how many worker threads
are alive (`len(self._workers)`), the halt flag, and the `TaskResult`s of
the enqueued tasks in FIFO order. -/
structure SimpleQueue (ρ ε : Type) where
  workers : Nat
  haltFlag : Bool
  tasks : List (TaskResult ρ ε)
deriving DecidableEq, Repr

/-- A freshly constructed `TaskQueue` (`__init__`): no workers, halt flag
down, empty queue. -/
def SimpleQueue.init {ρ ε : Type} : SimpleQueue ρ ε :=
  { workers := 0, haltFlag := false, tasks := [] }

/-- Embedding of `TaskQueue.enqueue`: appends a task and a fresh PENDING
`TaskResult`; never blocks. -/
def SimpleQueue.enqueue {ρ ε : Type} (s : SimpleQueue ρ ε) : SimpleQueue ρ ε :=
  { s with tasks := s.tasks ++ [TaskResult.init] }

/-- Embedding of `TaskQueue.halt_workers`: raises the halt flag, joins
every worker and clears the worker list.  With no worker alive it returns
immediately. -/
def SimpleQueue.halt_workers {ρ ε : Type} (s : SimpleQueue ρ ε) : SimpleQueue ρ ε :=
  { s with haltFlag := true, workers := 0 }

/-- One visible step of some worker thread: only an alive worker can
dequeue a PENDING task and run it (`TaskQueue._worker`); nothing else in
`task_queue.py` ever writes a `TaskResult`. -/
inductive WorkerStep {ρ ε : Type} : SimpleQueue ρ ε → SimpleQueue ρ ε → Prop where
  | run (s : SimpleQueue ρ ε) (i : Nat) (outcome : Except ε ρ) (now : Nat)
      (hw : 0 < s.workers) (hi : i < s.tasks.length)
      (hp : (s.tasks.get ⟨i, hi⟩).status = .pending) :
      WorkerStep s { s with tasks := s.tasks.set i (run_task outcome now (s.tasks.get ⟨i, hi⟩)) }

/-- Outcome of a call to `TaskResult.get`. -/
inductive GetOutcome (ρ ε : Type) where
  | value : Option ρ → GetOutcome ρ ε
  | raised : ε → GetOutcome ρ ε
  | timedOut : GetOutcome ρ ε
  | blocksForever : GetOutcome ρ ε
deriving DecidableEq, Repr

/-- Embedding of `TaskResult.get(timeout, propagate)` (lines 183–198) in
an execution where no worker thread exists, so no `notify` ever reaches
the condition variable and `self._cv.wait(timeout)` returns `False` once
the timeout elapses:

* if the result is ready, the stored exception is re-raised when
  `propagate` is set, otherwise the stored result is returned;
* otherwise a finite timeout raises `Timeout` and no timeout blocks the
  caller forever. -/
def TaskResult.get_no_notifier {ρ ε : Type} (r : TaskResult ρ ε)
    (timeout : Option Nat) (propagate : Bool) : GetOutcome ρ ε :=
  if r.ready then
    match propagate, r.exception with
    | true, some e => .raised e
    | _, _ => .value r.result
  else
    match timeout with
    | some _ => .timedOut
    | none => .blocksForever

/-! ## `pixie.py`: the download orchestrator

`_download_one_url` / `_download_multiple_urls` / `_check_exist`, with the
filesystem and the network abstracted into an explicit state:

* a file path is its directory plus its base name (`os.path.basename`);
* the filesystem is the list of existing files;
* the body of the retry loop's `try` block — stream the page into a
  buffer and write/convert it (`_download_illust_to_file` plus step 4 of
  the orchestrator contract) — is abstracted into `transfer tries`,
  which either succeeds or raises the attempt's exception;
* `netCalls` counts started transfers and `attempted` logs their URLs,
  so that "no network call is made" is provable. -/

structure FPath where
  dir : String
  base : String
deriving DecidableEq, Repr

/-- The mutable state threaded through a download call. -/
structure DLState where
  files : List FPath
  netCalls : Nat
  attempted : List String
deriving DecidableEq, Repr

/-- Embedding of `IllustType` (ILLUST / MANGA / UGOIRA). -/
inductive IllustType where
  | illust : IllustType
  | manga : IllustType
  | ugoira : IllustType
deriving DecidableEq, Repr

/-- The fields of `PixivIllust` that the download/driver claims read
(`itype` stands for the attribute `type`, a Lean keyword). -/
structure Illust where
  illust_id : Nat
  itype : IllustType
  total_bookmarks : Nat
  frame_delays : List Nat
  image_urls : List String
deriving DecidableEq, Repr

/-- Embedding of `PixivPixie._try_remove_file`: remove the file if it
exists, ignoring errors; `None` is ignored. -/
def try_remove_file (files : List FPath) (p : Option FPath) : List FPath :=
  match p with
  | none => files
  | some p => files.filter (fun q => q ≠ p)

/-- Embedding of `PixivPixie._check_exist(path, checklist)`: whether the
path's base name exists in any checklist folder. -/
def check_exist (files : List FPath) (path : FPath) (checklist : List String) : Bool :=
  checklist.any (fun folder => files.contains (FPath.mk folder path.base))

/-- Splitting a file name at its last dot (`os.path.splitext`), character
level.  Returns the root and the extension without its dot. -/
def splitLastDot : List Char → Option (List Char × List Char)
  | [] => none
  | c :: rest =>
    match splitLastDot rest with
    | some (r, e) => some (c :: r, e)
    | none => if c = '.' then some ([], rest) else none

/-- Embedding of `os.path.splitext` on a base name: root and extension
(the extension includes its leading dot, as in Python). -/
def splitext (s : String) : String × String :=
  match splitLastDot s.data with
  | some (r, e) => (String.mk r, String.mk ('.' :: e))
  | none => (s, "")

/-- The sidecar frame-duration file written next to an unconverted ugoira
archive: `os.path.splitext(path)[0] + '.txt'`. -/
def framePath (p : FPath) : FPath :=
  { p with base := (splitext p.base).1 ++ ".txt" }

/-- Outcome of `_download_one_url` for one page.  `downloaded`/`skipped`
are the function's `True`/`False` returns; `failed` is the raised
`DownloadError(illust, cause)`.  `fuelOut` is a model artifact: the
unbounded Python `for tries in count(start=1)` loop is run under an
explicit attempt budget, and `fuelOut` marks a run whose budget ended
before the loop did (no theorem below is about `fuelOut` runs). -/
inductive PageOutcome (ε : Type) where
  | skipped : PageOutcome ε
  | downloaded : PageOutcome ε
  | failed : Illust → ε → PageOutcome ε
  | fuelOut : PageOutcome ε
deriving DecidableEq, Repr

/-- The retry loop of `_download_one_url` (lines 551–577), starting at
attempt number `tries`:

* each attempt calls the transfer (network + write/convert);
* on success the destination file appears — plus, for a ugoira kept as a
  zip, the frame-duration sidecar — and the loop returns `True`;
* on an exception the partially written destination files are removed
  (`_try_remove_file`), and the loop retries while `max_tries is None or
  tries < max_tries`, otherwise raises `DownloadError(illust, e)`. -/
def download_url_loop {ε : Type} (illust : Illust) (url : String) (path : FPath)
    (convert_ugoira : Bool) (max_tries : Option Nat)
    (transfer : Nat → Option ε) : Nat → Nat → DLState → DLState × PageOutcome ε
  | 0, _, st => (st, .fuelOut)
  | fuel + 1, tries, st =>
    let st1 : DLState :=
      { st with netCalls := st.netCalls + 1, attempted := st.attempted ++ [url] }
    match transfer tries with
    | none =>
      let newFiles :=
        if illust.itype = .ugoira ∧ convert_ugoira then path :: st1.files
        else if illust.itype = .ugoira then framePath path :: path :: st1.files
        else path :: st1.files
      ({ st1 with files := newFiles }, .downloaded)
    | some e =>
      let st2 : DLState := { st1 with files := try_remove_file st1.files (some path) }
      match max_tries with
      | none => download_url_loop illust url path convert_ugoira none transfer fuel (tries + 1) st2
      | some m =>
        if tries < m then
          download_url_loop illust url path convert_ugoira (some m) transfer fuel (tries + 1) st2
        else (st2, .failed illust e)

/-- Embedding of `PixivPixie._download_one_url` (lines 528–577):

* not in replace mode and the destination exists → return `False`;
* `_check_exist(path, check_exists)` → return `False`;
* fake run → return `False`;
* otherwise run the retry loop from attempt 1. -/
def download_one_url {ε : Type} (illust : Illust) (url : String) (path : FPath)
    (convert_ugoira replace : Bool) (check_exists : List String)
    (max_tries : Option Nat) (fake_download : Bool)
    (transfer : Nat → Option ε) (fuel : Nat) (st : DLState) :
    DLState × PageOutcome ε :=
  if !replace && st.files.contains path then (st, .skipped)
  else if check_exist st.files path check_exists then (st, .skipped)
  else if fake_download then (st, .skipped)
  else download_url_loop illust url path convert_ugoira max_tries transfer fuel 1 st

/-- Outcome of `_download_multiple_urls`: the per-page result list
`(url, path, downloaded)` on normal return, or the propagated
`DownloadError` (the partial result list is discarded when a page
raises). -/
inductive MultiOutcome (ε : Type) where
  | ok : List (String × FPath × Bool) → MultiOutcome ε
  | failed : Illust → ε → MultiOutcome ε
  | fuelOut : MultiOutcome ε
deriving DecidableEq, Repr

/-- Embedding of `PixivPixie._download_multiple_urls` (lines 579–599):
run `_download_one_url` for each `(url, path)` target in order, collecting
`(url, path, result)` tuples; an exception raised by one page propagates
out of the whole call. -/
def download_multiple_urls {ε : Type} (illust : Illust)
    (targets : List (String × FPath)) (convert_ugoira replace : Bool)
    (check_exists : List String) (max_tries : Option Nat)
    (fake_download : Bool) (transfer : String → Nat → Option ε) (fuel : Nat)
    (st : DLState) : DLState × MultiOutcome ε :=
  match targets with
  | [] => (st, .ok [])
  | (url, path) :: rest =>
    match download_one_url illust url path convert_ugoira replace check_exists
        max_tries fake_download (transfer url) fuel st with
    | (st1, .skipped) =>
      match download_multiple_urls illust rest convert_ugoira replace
          check_exists max_tries fake_download transfer fuel st1 with
      | (st2, .ok rs) => (st2, .ok ((url, path, false) :: rs))
      | (st2, .failed i e) => (st2, .failed i e)
      | (st2, .fuelOut) => (st2, .fuelOut)
    | (st1, .downloaded) =>
      match download_multiple_urls illust rest convert_ugoira replace
          check_exists max_tries fake_download transfer fuel st1 with
      | (st2, .ok rs) => (st2, .ok ((url, path, true) :: rs))
      | (st2, .failed i e) => (st2, .failed i e)
      | (st2, .fuelOut) => (st2, .fuelOut)
    | (st1, .failed i e) => (st1, .failed i e)
    | (st1, .fuelOut) => (st1, .fuelOut)

/-! ## `downloader.py` / `queen.py`: the fetch pipeline

`Downloader._fetch` (lines 116–157) and `PixieQueen.fetch_and_download`
(lines 125–159) run the same record pipeline before enqueuing one
download per surviving record: `order_by`, then `limit_before`, then
`filter` (or `exclude` when no filter), then `limit_after`, then
`enumerate(start=1)`; the enumerated order is injected as the naming
`order` when the caller supplied no `addition_naming_info`. -/

/-- The enqueued download tasks produced by the driver's fetch pipeline:
one `(order, record)` pair per surviving record, in submission order.
`QuerySet.filter(q)`/`exclude(q)` keep/drop records by `q.validate`;
`QuerySet.limit(n)` is `islice(_, n)`; `QuerySet.enumerate(start=1)`
numbers the survivors from 1. -/
def fetch_pipeline {α β : Type} [LinearOrder β] (resolve : List PyStr → α → β)
    (order_fields : Option (List PyStr)) (limit_before : Option Nat)
    (filter_q : Option (QObj α)) (exclude_q : Option (QObj α))
    (limit_after : Option Nat) (source : List α) : List (Nat × α) :=
  let qs := source
  let qs :=
    match order_fields with
    | none => qs
    | some fields => order_by resolve fields qs
  let qs :=
    match limit_before with
    | none => qs
    | some n => qs.take n
  let qs :=
    match filter_q with
    | some q => qs.filter q.validate
    | none =>
      match exclude_q with
      | some q => qs.filter (fun x => !q.validate x)
      | none => qs
  let qs :=
    match limit_after with
    | none => qs
    | some n => qs.take n
  qs.enumFrom 1

/-- The `_get_attribute` resolution (`query_set.py`, lines 172–180)
specialised to the numeric attributes of `Illust` that the driver
scenario sorts by. -/
def illust_attr (segs : List PyStr) (r : Illust) : Nat :=
  if segs = [cs "total_bookmarks"] then r.total_bookmarks
  else if segs = [cs "illust_id"] then r.illust_id
  else 0

/-! ## Theorems -/

/-- C9: double negation is the identity on predicate behaviour: both for
`fp.Q.__invert__` (a new predicate returning `not self(x)`) and for
`query_set.QNot`, `~~p` evaluates to the same Boolean as `p` on every
input. -/
theorem C9_double_negation_identity {α : Type} :
    (∀ (p : α → Bool) (x : α), q_invert (q_invert p) x = p x) ∧
    (∀ (q : QObj α) (x : α), (QObj.qnot (QObj.qnot q)).validate x = q.validate x) :=
  ⟨fun p x => by simp [q_invert], fun q x => by simp [QObj.validate]⟩

/-- C10: a freshly created task result, whose task has not executed, has
status PENDING and no completion recorded, yet `successful()` returns
`True` and `failed()` returns `False`, because both predicates inspect
only the stored exception, which is `None` until the task runs. -/
theorem C10_fresh_result_reports_successful {ρ ε : Type} :
    (TaskResult.init : TaskResult ρ ε).status = .pending ∧
    (TaskResult.init : TaskResult ρ ε).ready = false ∧
    (TaskResult.init : TaskResult ρ ε).exception = none ∧
    (TaskResult.init : TaskResult ρ ε).successful = true ∧
    (TaskResult.init : TaskResult ρ ε).failed = false :=
  ⟨rfl, rfl, rfl, rfl, rfl⟩

/-- C1 counterexample: the lookup expression `age__foo` ends in the
explicitly written comparator name `foo`, which is not in the registry;
the claim requires predicate construction to fail with a configuration
error, but `from_lookup` builds the predicate successfully — and the
failure surfaces only at evaluation time, as a `LookupError` on a record
that has an `age` field but no `foo` field. -/
theorem C1_counterexample_unknown_name_builds :
    isRegisteredLookup (cs "foo") = false ∧
    (from_lookup (cs "age__foo") (.pyint 18)).isOk = true ∧
    (from_lookup (cs "age__foo") (.pyint 18)).toOption.map
      (fun q => q (.pyobj [(cs "age", .pyint 18)])) = some (.error .lookupError) :=
  ⟨rfl, rfl, rfl⟩

/-- C1 (amended): a lookup expression whose final segment is not a
registered comparator name does NOT fail at predicate-construction time:
the final segment is kept as a field segment, the default `eq` comparator
is assumed, construction succeeds, and any failure surfaces only when the
predicate is evaluated on a record (`get_lookup` raises the configuration
`ValueError` only when called directly with an unregistered name). -/
theorem C1_unknown_comparator_is_field_eq (lookup : PyStr) (param : PyVal)
    (fields : List PyStr) (w : PyStr)
    (hsplit : splitSEP lookup = fields ++ [w])
    (hw : isRegisteredLookup w = false) :
    ∃ q, from_lookup lookup param = .ok q ∧
      ∀ r, q r = (chained_field_getter (fields ++ [w]) r).bind
        (fun v => .ok (pyValBeq v param)) := by
  refine ⟨fun x => (chained_field_getter (fields ++ [w]) x).bind
    (fun v => .ok (pyValBeq v param)), ?_, fun r => rfl⟩
  have hget : get_lookup qDefaultLookupName =
      .ok (fun a b => .ok (pyValBeq a b)) := rfl
  simp only [from_lookup, hsplit, List.getLast?_concat, List.dropLast_concat, hw,
    Bool.false_eq_true, if_false, hget]

/-- C1 witness: the amended theorem applied at the lookup `age__foo` with
parameter 18. -/
theorem C1_witness :
    ∃ q, from_lookup (cs "age__foo") (.pyint 18) = .ok q ∧
      ∀ r, q r = (chained_field_getter ([cs "age"] ++ [cs "foo"]) r).bind
        (fun v => .ok (pyValBeq v (.pyint 18))) :=
  C1_unknown_comparator_is_field_eq (cs "age__foo") (.pyint 18)
    [cs "age"] (cs "foo") (by decide) (by decide)

/-- C6: the states a worker writes to a task result move only forward
along PENDING → STARTED → terminal — adjacent states never decrease in
rank, a terminal state is never left — and the final state exposes the
stored return value (on SUCCESS) or the stored exception (on FAILURE). -/
theorem C6_status_moves_forward {ρ ε : Type} (outcome : Except ε ρ) (now : Nat) :
    (worker_run_states outcome now (TaskResult.init : TaskResult ρ ε)).head? =
      some TaskResult.init ∧
    List.Chain'
      (fun a b => statusRank a.status ≤ statusRank b.status ∧
        (a.status.isTerminal = true → b = a))
      (worker_run_states outcome now (TaskResult.init : TaskResult ρ ε)) ∧
    (∃ rl, (worker_run_states outcome now
        (TaskResult.init : TaskResult ρ ε)).getLast? = some rl ∧
      rl.status.isTerminal = true ∧
      (∀ v, outcome = .ok v → rl.status = .success ∧ rl.result = some v) ∧
      (∀ e, outcome = .error e → rl.status = .failure ∧ rl.exception = some e)) := by
  cases outcome with
  | ok v =>
    refine ⟨rfl, ?_, ?_⟩
    · simp [worker_run_states, List.chain'_cons, TaskResult.set_result,
        statusRank, TaskStatus.isTerminal, TaskResult.init]
    · exact ⟨_, rfl, rfl, fun w hw => by
        injection hw with h; subst h; exact ⟨rfl, rfl⟩,
        fun e he => by injection he⟩
  | error e =>
    refine ⟨rfl, ?_, ?_⟩
    · simp [worker_run_states, List.chain'_cons, TaskResult.set_exception,
        statusRank, TaskStatus.isTerminal, TaskResult.init]
    · exact ⟨_, rfl, rfl, fun v hv => by injection hv,
        fun f hf => by injection hf with h; subst h; exact ⟨rfl, rfl⟩⟩

/-- C6 witness: the theorem evaluated at a concrete successful task. -/
theorem C6_witness :
    (worker_run_states (Except.ok 42 : Except Unit Nat) 7 TaskResult.init).head? =
      some TaskResult.init ∧
    List.Chain'
      (fun a b => statusRank a.status ≤ statusRank b.status ∧
        (a.status.isTerminal = true → b = a))
      (worker_run_states (Except.ok 42 : Except Unit Nat) 7 TaskResult.init) ∧
    (∃ rl, (worker_run_states (Except.ok 42 : Except Unit Nat) 7
        TaskResult.init).getLast? = some rl ∧
      rl.status.isTerminal = true ∧
      (∀ v, (Except.ok 42 : Except Unit Nat) = .ok v →
        rl.status = .success ∧ rl.result = some v) ∧
      (∀ e, (Except.ok 42 : Except Unit Nat) = .error e →
        rl.status = .failure ∧ rl.exception = some e)) :=
  C6_status_moves_forward (Except.ok 42) 7

/-- C7: after `enqueue` and then `halt_workers()` on a queue on which no
worker was ever spawned, no sequence of worker steps can run the task —
its result stays PENDING — and `TaskResult.get` with a finite timeout
times out instead of blocking forever. -/
theorem C7_halt_without_workers_task_pending {ρ ε : Type}
    (s' : SimpleQueue ρ ε)
    (h : Relation.ReflTransGen WorkerStep
      ((SimpleQueue.init : SimpleQueue ρ ε).enqueue.halt_workers) s') :
    s'.workers = 0 ∧ s'.tasks = [TaskResult.init] ∧
    ∀ (t : Nat) (propagate : Bool), ∀ r ∈ s'.tasks,
      r.get_no_notifier (some t) propagate = .timedOut := by
  induction h with
  | refl =>
    refine ⟨rfl, rfl, fun t propagate r hr => ?_⟩
    simp only [SimpleQueue.halt_workers, SimpleQueue.enqueue, SimpleQueue.init,
      List.nil_append, List.mem_singleton] at hr
    subst hr
    rfl
  | tail hab hbc ih =>
    cases hbc with
    | run i outcome now hw hi hp =>
      rw [ih.1] at hw
      exact absurd hw (lt_irrefl 0)

/-- C7 witness: the theorem applied to the halted queue itself (the empty
step sequence), at timeout 1. -/
theorem C7_witness :
    ((SimpleQueue.init : SimpleQueue Nat Unit).enqueue.halt_workers).workers = 0 ∧
    ((SimpleQueue.init : SimpleQueue Nat Unit).enqueue.halt_workers).tasks =
      [TaskResult.init] ∧
    ∀ (t : Nat) (propagate : Bool),
      ∀ r ∈ ((SimpleQueue.init : SimpleQueue Nat Unit).enqueue.halt_workers).tasks,
        r.get_no_notifier (some t) propagate = .timedOut :=
  C7_halt_without_workers_task_pending _ Relation.ReflTransGen.refl

/-- The output of `list.sort` is a permutation of the input. -/
theorem pysort_perm {α β : Type} [LinearOrder β] (key : α → β) (rev : Bool)
    (l : List α) : (pysort key rev l).Perm l := by
  cases rev
  · simpa [pysort] using List.perm_insertionSort (fun a b => key a ≤ key b) l
  · simpa [pysort] using List.perm_insertionSort (fun a b => key b ≤ key a) l

/-- Ascending `list.sort(key=key)` yields a list whose keys are
non-decreasing. -/
theorem pysort_sorted_asc {α β : Type} [LinearOrder β] (key : α → β)
    (l : List α) : (pysort key false l).Pairwise (fun a b => key a ≤ key b) := by
  haveI : IsTotal α (fun a b => key a ≤ key b) := ⟨fun a b => le_total _ _⟩
  haveI : IsTrans α (fun a b => key a ≤ key b) :=
    ⟨fun a b c h1 h2 => le_trans h1 h2⟩
  simpa [pysort] using List.sorted_insertionSort (fun a b => key a ≤ key b) l

/-- Descending `list.sort(key=key, reverse=True)` yields a list whose keys
are non-increasing. -/
theorem pysort_sorted_desc {α β : Type} [LinearOrder β] (key : α → β)
    (l : List α) : (pysort key true l).Pairwise (fun a b => key b ≤ key a) := by
  haveI : IsTotal α (fun a b => key b ≤ key a) := ⟨fun a b => le_total _ _⟩
  haveI : IsTrans α (fun a b => key b ≤ key a) :=
    ⟨fun a b c h1 h2 => le_trans h2 h1⟩
  simpa [pysort] using List.sorted_insertionSort (fun a b => key b ≤ key a) l

/-- On a list whose keys are pairwise distinct, the descending sort is the
exact reverse of the ascending sort. -/
theorem pysort_desc_eq_reverse_asc {α β : Type} [LinearOrder β] (key : α → β)
    (l : List α) (hdist : l.Pairwise fun a b => key a ≠ key b) :
    pysort key true l = (pysort key false l).reverse := by
  haveI : IsAntisymm α (fun a b : α => key b < key a) :=
    ⟨fun a b h1 h2 => absurd (lt_trans h1 h2) (lt_irrefl _)⟩
  have hsymm : ∀ {a b : α}, key a ≠ key b → key b ≠ key a :=
    fun h => Ne.symm h
  have hp1 : (pysort key true l).Perm l := pysort_perm key true l
  have hp2 : ((pysort key false l).reverse).Perm l :=
    (List.reverse_perm (pysort key false l)).trans (pysort_perm key false l)
  have hd1 : (pysort key true l).Pairwise (fun a b => key a ≠ key b) :=
    (List.Perm.pairwise_iff hsymm hp1).mpr hdist
  have hd2 : ((pysort key false l).reverse).Pairwise (fun a b => key a ≠ key b) :=
    (List.Perm.pairwise_iff hsymm hp2).mpr hdist
  have hs1 : (pysort key true l).Pairwise (fun a b => key b < key a) :=
    ((pysort_sorted_desc key l).and hd1).imp fun h =>
      lt_of_le_of_ne h.1 (Ne.symm h.2)
  have hs2 : ((pysort key false l).reverse).Pairwise (fun a b => key b < key a) := by
    have hle : ((pysort key false l).reverse).Pairwise (fun a b => key b ≤ key a) := by
      rw [List.pairwise_reverse]
      exact pysort_sorted_asc key l
    exact (hle.and hd2).imp fun h => lt_of_le_of_ne h.1 (Ne.symm h.2)
  exact List.eq_of_perm_of_sorted (hp1.trans hp2.symm) hs1 hs2

/-- C8: on any finite input in which no two elements share the value of
the sort field, `order_by('-field')` outputs the exact reverse of
`order_by('field')`. -/
theorem C8_order_by_descending_is_reverse {α β : Type} [LinearOrder β]
    (resolve : List PyStr → α → β) (f : PyStr) (l : List α)
    (hf : f.head? ≠ some '-')
    (hdist : l.Pairwise fun a b => resolve (splitSEP f) a ≠ resolve (splitSEP f) b) :
    order_by resolve ['-' :: f] l = (order_by resolve [f] l).reverse := by
  have hdesc : order_by resolve ['-' :: f] l =
      pysort (resolve (splitSEP f)) true l := rfl
  have hasc : order_by resolve [f] l = pysort (resolve (splitSEP f)) false l := by
    cases f with
    | nil => rfl
    | cons c rest =>
      have hc : c ≠ '-' := by
        intro h
        exact hf (by rw [h]; rfl)
      unfold order_by
      rw [if_neg (by simp : ¬([c :: rest] = ([] : List PyStr)))]
      simp only [List.reverse_cons, List.reverse_nil, List.nil_append,
        List.foldl_cons, List.foldl_nil]
      split
      · rename_i name heq
        injection heq with h1 _
        exact absurd h1 hc
      · rfl
  rw [hdesc, hasc, pysort_desc_eq_reverse_asc _ _ hdist]

/-- C8 witness: three records with pairwise-distinct bookmark counts,
sorted by the `total_bookmarks` field. -/
theorem C8_witness :
    order_by (fun _ r => r.total_bookmarks) ['-' :: cs "total_bookmarks"]
      [Illust.mk 1 .illust 5 [] [], Illust.mk 2 .illust 9 [] [],
        Illust.mk 3 .illust 7 [] []] =
    (order_by (fun _ r => r.total_bookmarks) [cs "total_bookmarks"]
      [Illust.mk 1 .illust 5 [] [], Illust.mk 2 .illust 9 [] [],
        Illust.mk 3 .illust 7 [] []]).reverse :=
  C8_order_by_descending_is_reverse
    ((fun _ r => r.total_bookmarks) : List PyStr → Illust → Nat)
    (cs "total_bookmarks") _ (by decide) (by decide)

/-- When the destination does not exist and no checklist folder has it,
`_download_one_url` reaches the retry loop, starting at attempt 1. -/
theorem download_one_url_enters_loop {ε : Type} (illust : Illust) (url : String)
    (path : FPath) (cu replace : Bool) (ce : List String) (mt : Option Nat)
    (tr : Nat → Option ε) (fuel : Nat) (st : DLState)
    (hnf : st.files.contains path = false)
    (hnc : check_exist st.files path ce = false) :
    download_one_url illust url path cu replace ce mt false tr fuel st =
      download_url_loop illust url path cu mt tr fuel 1 st := by
  unfold download_one_url
  rw [hnf, hnc]
  simp

/-- With `max_tries = m` and a transfer raising on every attempt, the loop
entered at attempt `tries ≤ m` performs the remaining `m - tries + 1`
attempts — each deleting the partially written destination — and raises
`DownloadError(illust, last cause)`. -/
theorem download_url_loop_exhausts {ε : Type} (illust : Illust) (url : String)
    (path : FPath) (cu : Bool) (err : Nat → ε) (m : Nat) :
    ∀ (fuel tries : Nat) (st : DLState), tries ≤ m → m - tries < fuel →
      download_url_loop illust url path cu (some m) (fun t => some (err t))
          fuel tries st =
        ({ files := st.files.filter (fun q => q ≠ path),
           netCalls := st.netCalls + (m - tries + 1),
           attempted := st.attempted ++ List.replicate (m - tries + 1) url },
         .failed illust (err m)) := by
  intro fuel
  induction fuel with
  | zero => intro tries st h1 h2; omega
  | succ f ih =>
    intro tries st h1 h2
    by_cases hlt : tries < m
    · have hrec := ih (tries + 1)
        { files := st.files.filter (fun q => q ≠ path),
          netCalls := st.netCalls + 1, attempted := st.attempted ++ [url] }
        (by omega) (by omega)
      simp only [download_url_loop, try_remove_file, if_pos hlt] at hrec ⊢
      rw [hrec]
      have hn : m - tries + 1 = (m - (tries + 1) + 1) + 1 := by omega
      simp only [Prod.mk.injEq, DLState.mk.injEq]
      refine ⟨⟨?_, by omega, ?_⟩, trivial⟩
      · simp [List.filter_filter]
      · rw [hn]
        simp [List.replicate_succ]
    · have hm : tries = m := le_antisymm h1 (not_lt.mp hlt)
      subst hm
      simp [download_url_loop, try_remove_file, hlt, List.replicate_succ]

/-- With `max_tries=None` and a transfer that keeps failing through
attempt `k` and succeeds at attempt `k + 1`, the loop entered at
`tries ≤ k + 1` eventually returns `True`, having made one network call
per remaining attempt, and the destination file exists afterwards. -/
theorem download_url_loop_unbounded_success {ε : Type} (illust : Illust)
    (url : String) (path : FPath) (cu : Bool) (transfer : Nat → Option ε)
    (k : Nat) (hs : transfer (k + 1) = none) :
    ∀ (fuel tries : Nat) (st : DLState), tries ≤ k + 1 → k + 1 - tries < fuel →
      (∀ t, tries ≤ t → t ≤ k → (transfer t).isSome = true) →
      (download_url_loop illust url path cu none transfer fuel tries st).2 =
        .downloaded ∧
      (download_url_loop illust url path cu none transfer fuel tries st).1.netCalls =
        st.netCalls + (k + 2 - tries) ∧
      path ∈ (download_url_loop illust url path cu none transfer fuel tries st).1.files := by
  intro fuel
  induction fuel with
  | zero => intro tries st h1 h2; omega
  | succ f ih =>
    intro tries st h1 h2 hfail
    by_cases hk : tries = k + 1
    · subst hk
      refine ⟨?_, ?_, ?_⟩
      · simp [download_url_loop, hs]
      · simp [download_url_loop, hs]
        try omega
      · simp only [download_url_loop, hs]
        split
        · simp
        · split <;> simp
    · have htk : tries ≤ k := by omega
      obtain ⟨e, he⟩ := Option.isSome_iff_exists.mp (hfail tries le_rfl htk)
      have hrec := ih (tries + 1)
        { files := (st.files ++ []).filter (fun q => q ≠ path) ,
          netCalls := st.netCalls + 1, attempted := st.attempted ++ [url] }
        (by omega) (by omega) (fun t ht1 ht2 => hfail t (by omega) ht2)
      simp only [List.append_nil] at hrec
      simp only [download_url_loop, he, try_remove_file]
      refine ⟨hrec.1, ?_, hrec.2.2⟩
      rw [hrec.2.1]
      simp
      omega

/-- C3 (amended): for a page that reaches the retry loop (destination
absent, checklist clean):

* with `max_tries` a positive `n`, an always-raising transfer is attempted
  exactly `n` times (n network calls) and then raises
  `DownloadError(illust, last cause)`, with the destination file absent
  from the final state;
* on every non-final failed attempt the partially written destination is
  deleted before the retry (the loop recurses into a state whose files no
  longer contain the destination);
* with `max_tries=None` (unset), attempts continue without bound: a
  transfer failing on attempts `1..k` and succeeding at `k + 1` yields a
  successful download after `k + 1` attempts, for every `k`.

(`max_tries = 0`, by contrast, yields exactly one attempt — see the
counterexample.) -/
theorem C3_retry_exhaustion_and_unbounded {ε : Type} (illust : Illust)
    (url : String) (path : FPath) (cu : Bool) (ce : List String) (st : DLState)
    (hnf : st.files.contains path = false)
    (hnc : check_exist st.files path ce = false) :
    (∀ (n fuel : Nat) (err : Nat → ε) (replace : Bool), 0 < n → n ≤ fuel →
      download_one_url illust url path cu replace ce (some n) false
          (fun t => some (err t)) fuel st =
        ({ files := st.files.filter (fun q => q ≠ path),
           netCalls := st.netCalls + n,
           attempted := st.attempted ++ List.replicate n url },
         .failed illust (err n)) ∧
      path ∉ st.files.filter (fun q => q ≠ path)) ∧
    (∀ (m f tries : Nat) (tr : Nat → Option ε) (e : ε) (stx : DLState),
      tr tries = some e → tries < m →
      download_url_loop illust url path cu (some m) tr (f + 1) tries stx =
        download_url_loop illust url path cu (some m) tr f (tries + 1)
          { files := stx.files.filter (fun q => q ≠ path),
            netCalls := stx.netCalls + 1,
            attempted := stx.attempted ++ [url] } ∧
      path ∉ stx.files.filter (fun q => q ≠ path)) ∧
    (∀ (k fuel : Nat) (tr : Nat → Option ε) (replace : Bool),
      tr (k + 1) = none → (∀ t, 1 ≤ t → t ≤ k → (tr t).isSome = true) →
      k + 1 ≤ fuel →
      (download_one_url illust url path cu replace ce none false tr fuel st).2 =
        .downloaded ∧
      (download_one_url illust url path cu replace ce none false tr fuel st).1.netCalls =
        st.netCalls + (k + 1)) := by
  refine ⟨?_, ?_, ?_⟩
  · intro n fuel err replace hn hfuel
    rw [download_one_url_enters_loop _ _ _ _ _ _ _ _ _ _ hnf hnc]
    constructor
    · have hx := download_url_loop_exhausts illust url path cu err n fuel 1 st
        hn (by omega)
      have hnn : n - 1 + 1 = n := by omega
      rw [hnn] at hx
      exact hx
    · simp
  · intro m f tries tr e stx htr hlt
    constructor
    · simp only [download_url_loop, htr, try_remove_file, if_pos hlt]
    · simp
  · intro k fuel tr replace hs hf hfuel
    rw [download_one_url_enters_loop _ _ _ _ _ _ _ _ _ _ hnf hnc]
    have h := download_url_loop_unbounded_success illust url path cu tr k hs
      fuel 1 st (by omega) (by omega) (fun t ht1 ht2 => hf t ht1 ht2)
    refine ⟨h.1, ?_⟩
    rw [h.2.1]
    omega

/-- C3 witness: a transfer raising on every attempt with `max_tries=2` is
attempted exactly twice and raises `DownloadError` with the last cause. -/
theorem C3_witness :
    download_one_url (Illust.mk 1 .illust 0 [] []) "u" (FPath.mk "d" "f.png")
        false false [] (some 2) false (fun t => some t) 2 (DLState.mk [] 0 []) =
      (DLState.mk [] 2 ["u", "u"],
       .failed (Illust.mk 1 .illust 0 [] []) 2) ∧
    FPath.mk "d" "f.png" ∉
      (DLState.mk [] 0 []).files.filter (fun q => q ≠ FPath.mk "d" "f.png") :=
  (C3_retry_exhaustion_and_unbounded (Illust.mk 1 .illust 0 [] []) "u"
      (FPath.mk "d" "f.png") false [] (DLState.mk [] 0 [])
      (by decide) (by decide)).1 2 2 (fun t => t) false (by decide) (by decide)

/-- C3 counterexample: with `max_tries=0` the claim requires unbounded
retrying (so a transfer failing only on its first attempt must eventually
succeed), but the code's retry condition `tries < max_tries` is already
false on attempt 1: the page is attempted exactly once (one network call)
and raises `DownloadError`. -/
theorem C3_counterexample_zero_max_tries :
    download_one_url (Illust.mk 1 .illust 0 [] []) "u" (FPath.mk "d" "f.png")
        false false [] (some 0) false
        (fun t => if t = 1 then some 0 else (none : Option Nat)) 5
        (DLState.mk [] 0 []) =
      (DLState.mk [] 1 ["u"], .failed (Illust.mk 1 .illust 0 [] []) 0) := by
  rfl

/-- The retry loop never removes a file other than its own destination:
any file distinct from `path` survives the whole loop. -/
theorem download_url_loop_files_monotone {ε : Type} (illust : Illust)
    (url : String) (path : FPath) (cu : Bool) (mt : Option Nat)
    (tr : Nat → Option ε) :
    ∀ (fuel tries : Nat) (st : DLState) (q : FPath), q ∈ st.files → q ≠ path →
      q ∈ (download_url_loop illust url path cu mt tr fuel tries st).1.files := by
  intro fuel
  induction fuel with
  | zero =>
    intro tries st q hq hne
    simpa [download_url_loop] using hq
  | succ f ih =>
    intro tries st q hq hne
    cases htr : tr tries with
    | none =>
      simp only [download_url_loop, htr]
      split
      · simp [hq]
      · split <;> simp [hq]
    | some e =>
      simp only [download_url_loop, htr, try_remove_file]
      have hq2 : q ∈ st.files.filter (fun p0 => p0 ≠ path) := by
        simp [List.mem_filter, hq, hne]
      cases mt with
      | none => exact ih (tries + 1) _ q hq2 hne
      | some m =>
        by_cases hlt : tries < m
        · simp only [if_pos hlt]
          exact ih (tries + 1) _ q hq2 hne
        · simp only [if_neg hlt]
          exact hq2

/-- `_download_one_url` never removes a file other than its own
destination. -/
theorem download_one_url_files_monotone {ε : Type} (illust : Illust)
    (url : String) (path : FPath) (cu replace : Bool) (ce : List String)
    (mt : Option Nat) (fake : Bool) (tr : Nat → Option ε) (fuel : Nat)
    (st : DLState) (q : FPath) (hq : q ∈ st.files) (hne : q ≠ path) :
    q ∈ (download_one_url illust url path cu replace ce mt fake tr fuel st).1.files := by
  unfold download_one_url
  split
  · exact hq
  · split
    · exact hq
    · split
      · exact hq
      · exact download_url_loop_files_monotone illust url path cu mt tr fuel 1 st q hq hne

/-- A page whose transfer succeeds on the first attempt either skips
(state untouched, because the destination or its base name already
exists) or downloads on attempt 1, adding its destination; existing files
are kept either way. -/
theorem download_one_url_first_try {ε : Type} (illust : Illust) (url : String)
    (path : FPath) (cu replace : Bool) (ce : List String) (mt : Option Nat)
    (tr : Nat → Option ε) (fuel : Nat) (st : DLState)
    (h1 : tr 1 = none) (hfuel : 1 ≤ fuel) :
    (download_one_url illust url path cu replace ce mt false tr fuel st =
        (st, .skipped) ∧
      ((!replace && st.files.contains path) = true ∨
        check_exist st.files path ce = true)) ∨
    ((download_one_url illust url path cu replace ce mt false tr fuel st).2 =
        .downloaded ∧
      path ∈ (download_one_url illust url path cu replace ce mt false tr fuel st).1.files ∧
      ∀ q ∈ st.files,
        q ∈ (download_one_url illust url path cu replace ce mt false tr fuel st).1.files) := by
  obtain ⟨f, rfl⟩ : ∃ f, fuel = f + 1 := ⟨fuel - 1, by omega⟩
  by_cases c1 : (!replace && st.files.contains path) = true
  · left
    unfold download_one_url
    rw [if_pos c1]
    exact ⟨rfl, Or.inl c1⟩
  · by_cases c2 : check_exist st.files path ce = true
    · left
      unfold download_one_url
      rw [if_neg c1, if_pos c2]
      exact ⟨rfl, Or.inr c2⟩
    · right
      unfold download_one_url
      rw [if_neg c1, if_neg c2]
      simp only [Bool.false_eq_true, if_false, download_url_loop, h1]
      refine ⟨trivial, ?_, ?_⟩
      · split
        · simp
        · split <;> simp
      · intro q hq
        split
        · simp [hq]
        · split <;> simp [hq]

/-- When every page's transfer succeeds on its first attempt,
`_download_multiple_urls` returns one `(url, path, downloaded)` tuple per
page, in order. -/
theorem download_multiple_all_ok {ε : Type} (illust : Illust) (cu replace : Bool)
    (ce : List String) (mt : Option Nat) (tr : String → Nat → Option ε)
    (fuel : Nat) (hok : ∀ u, tr u 1 = none) (hfuel : 1 ≤ fuel) :
    ∀ (targets : List (String × FPath)) (st : DLState),
      ∃ st2 rs,
        download_multiple_urls illust targets cu replace ce mt false tr fuel st =
          (st2, .ok rs) ∧
        rs.map (fun r => (r.1, r.2.1)) = targets := by
  intro targets
  induction targets with
  | nil => exact fun st => ⟨st, [], rfl, rfl⟩
  | cons hd tl ih =>
    intro st
    obtain ⟨u, p⟩ := hd
    rcases hh : download_one_url illust u p cu replace ce mt false (tr u) fuel st
      with ⟨st1, out⟩
    rcases download_one_url_first_try illust u p cu replace ce mt (tr u) fuel st
        (hok u) hfuel with ⟨hskip, -⟩ | ⟨hdl, -, -⟩
    · rw [hh] at hskip
      obtain ⟨hst1, hout⟩ := Prod.mk.injEq .. ▸ hskip
      obtain ⟨st2, rs, hrest, hmap⟩ := ih st1
      refine ⟨st2, (u, p, false) :: rs, ?_, by simp [hmap]⟩
      simp only [download_multiple_urls, hh, hout, hrest]
    · rw [hh] at hdl
      simp only at hdl
      obtain ⟨st2, rs, hrest, hmap⟩ := ih st1
      refine ⟨st2, (u, p, true) :: rs, ?_, by simp [hmap]⟩
      rw [hdl] at hh
      simp only [download_multiple_urls, hh, hrest]

/-- A page failure aborts `_download_multiple_urls`: if the pages before
it all completed and page `(u, p)` raises `DownloadError`, the whole call
returns that error from the failing page's state — the pages after it are
never run and the earlier pages' tuples are not returned. -/
theorem download_multiple_abort {ε : Type} (illust : Illust) (cu replace : Bool)
    (ce : List String) (mt : Option Nat) (fake : Bool)
    (tr : String → Nat → Option ε) (fuel : Nat) :
    ∀ (pre : List (String × FPath)) (u : String) (p : FPath)
      (post : List (String × FPath)) (st st1 st2 : DLState)
      (rs1 : List (String × FPath × Bool)) (i : Illust) (e : ε),
      download_multiple_urls illust pre cu replace ce mt fake tr fuel st =
        (st1, .ok rs1) →
      download_one_url illust u p cu replace ce mt fake (tr u) fuel st1 =
        (st2, .failed i e) →
      download_multiple_urls illust (pre ++ (u, p) :: post) cu replace ce mt
          fake tr fuel st = (st2, .failed i e) := by
  intro pre
  induction pre with
  | nil =>
    intro u p post st st1 st2 rs1 i e hpre hfail
    obtain ⟨hst, -⟩ := Prod.mk.injEq .. ▸ hpre
    subst hst
    simp only [List.nil_append, download_multiple_urls, hfail]
  | cons hd tl ih =>
    intro u p post st st1 st2 rs1 i e hpre hfail
    obtain ⟨u0, p0⟩ := hd
    rcases hh : download_one_url illust u0 p0 cu replace ce mt fake (tr u0) fuel st
      with ⟨sth, outh⟩
    cases outh with
    | skipped =>
      simp only [download_multiple_urls, hh] at hpre
      rcases hrest : download_multiple_urls illust tl cu replace ce mt fake tr fuel sth
        with ⟨str, outr⟩
      cases outr with
      | ok rs =>
        rw [hrest] at hpre
        simp only [Prod.mk.injEq, MultiOutcome.ok.injEq] at hpre
        obtain ⟨hst1, -⟩ := hpre
        subst hst1
        have hres2 := ih u p post sth str st2 rs i e hrest hfail
        simp only [List.cons_append, download_multiple_urls, List.append_eq, hh, hres2]
      | failed i2 e2 =>
        rw [hrest] at hpre
        simp at hpre
      | fuelOut =>
        rw [hrest] at hpre
        simp at hpre
    | downloaded =>
      simp only [download_multiple_urls, hh] at hpre
      rcases hrest : download_multiple_urls illust tl cu replace ce mt fake tr fuel sth
        with ⟨str, outr⟩
      cases outr with
      | ok rs =>
        rw [hrest] at hpre
        simp only [Prod.mk.injEq, MultiOutcome.ok.injEq] at hpre
        obtain ⟨hst1, -⟩ := hpre
        subst hst1
        have hres2 := ih u p post sth str st2 rs i e hrest hfail
        simp only [List.cons_append, download_multiple_urls, List.append_eq, hh, hres2]
      | failed i2 e2 =>
        rw [hrest] at hpre
        simp at hpre
      | fuelOut =>
        rw [hrest] at hpre
        simp at hpre
    | failed i2 e2 =>
      simp only [download_multiple_urls, hh] at hpre
      simp at hpre
    | fuelOut =>
      simp only [download_multiple_urls, hh] at hpre
      simp at hpre

/-- C2 (amended): a whole-record download returns one outcome tuple
`(url, path, downloaded)` per page, in page order, when every page
completes without raising; but a page failure (after retry exhaustion)
propagates out of `_download_multiple_urls`: the call returns the
`DownloadError` from the failing page's state, the pages after the
failing one are never attempted, the earlier pages' tuples are not
returned — only the files already written for completed sibling pages
remain on disk. -/
theorem C2_whole_record_download {ε : Type} (illust : Illust)
    (cu replace : Bool) (ce : List String) (mt : Option Nat)
    (tr : String → Nat → Option ε) (fuel : Nat) :
    ((∀ u, tr u 1 = none) → 1 ≤ fuel →
      ∀ (targets : List (String × FPath)) (st : DLState),
        ∃ st2 rs,
          download_multiple_urls illust targets cu replace ce mt false tr fuel st =
            (st2, .ok rs) ∧
          rs.map (fun r => (r.1, r.2.1)) = targets) ∧
    (∀ (fake : Bool) (pre post : List (String × FPath)) (u : String) (p : FPath)
        (st st1 st2 : DLState) (rs1 : List (String × FPath × Bool))
        (i : Illust) (e : ε),
      download_multiple_urls illust pre cu replace ce mt fake tr fuel st =
        (st1, .ok rs1) →
      download_one_url illust u p cu replace ce mt fake (tr u) fuel st1 =
        (st2, .failed i e) →
      download_multiple_urls illust (pre ++ (u, p) :: post) cu replace ce mt
          fake tr fuel st = (st2, .failed i e) ∧
      ∀ q ∈ st1.files, q ≠ p → q ∈ st2.files) := by
  constructor
  · intro hok hfuel targets st
    exact download_multiple_all_ok illust cu replace ce mt tr fuel hok hfuel targets st
  · intro fake pre post u p st st1 st2 rs1 i e hpre hfail
    refine ⟨download_multiple_abort illust cu replace ce mt fake tr fuel pre u p
      post st st1 st2 rs1 i e hpre hfail, ?_⟩
    intro q hq hne
    have hm := download_one_url_files_monotone illust u p cu replace ce mt fake
      (tr u) fuel st1 q hq hne
    rw [hfail] at hm
    exact hm

/-- C2 witness: a two-page record whose transfers succeed yields one
tuple per page. -/
theorem C2_witness :
    ∃ st2 rs,
      download_multiple_urls (Illust.mk 1 .illust 0 [] [])
          [("u1", FPath.mk "d" "a.png"), ("u2", FPath.mk "d" "b.png")]
          false false [] (some 5) false
          (fun _ _ => (none : Option Nat)) 1 (DLState.mk [] 0 []) =
        (st2, .ok rs) ∧
      rs.map (fun r => (r.1, r.2.1)) =
        [("u1", FPath.mk "d" "a.png"), ("u2", FPath.mk "d" "b.png")] :=
  (C2_whole_record_download (Illust.mk 1 .illust 0 [] []) false false []
      (some 5) (fun _ _ => (none : Option Nat)) 1).1
    (fun _ => rfl) (by decide) _ _

/-- C2 counterexample: a two-page record whose first page always fails
(with `max_tries=1`): the whole-record call raises `DownloadError` instead
of returning one outcome tuple per page, and the second page's URL is
never attempted (the attempt log holds only the first URL). -/
theorem C2_counterexample_partial_failure :
    download_multiple_urls (Illust.mk 1 .illust 0 [] [])
        [("u1", FPath.mk "d" "a.png"), ("u2", FPath.mk "d" "b.png")]
        false false [] (some 1) false
        (fun u _ => if u = "u1" then some 0 else (none : Option Nat)) 1
        (DLState.mk [] 0 []) =
      (DLState.mk [] 1 ["u1"],
       .failed (Illust.mk 1 .illust 0 [] []) 0) := by
  rfl

/-- `_check_exist` is monotone in the filesystem: growing the set of
files cannot turn a hit into a miss. -/
theorem check_exist_mono (files files' : List FPath) (path : FPath)
    (ce : List String) (hsub : ∀ q ∈ files, q ∈ files')
    (h : check_exist files path ce = true) :
    check_exist files' path ce = true := by
  simp only [check_exist, List.any_eq_true] at h ⊢
  obtain ⟨folder, hf, hmem⟩ := h
  exact ⟨folder, hf,
    List.elem_eq_true_of_mem (hsub _ (List.mem_of_elem_eq_true hmem))⟩

/-- After a whole-record run in which every transfer succeeds on its
first attempt, the filesystem has only grown, and every target path
either exists or hits the caller's check-exists folders. -/
theorem download_multiple_establishes {ε : Type} (illust : Illust) (cu : Bool)
    (ce : List String) (mt : Option Nat) (tr : String → Nat → Option ε)
    (fuel : Nat) (hok : ∀ u, tr u 1 = none) (hfuel : 1 ≤ fuel) :
    ∀ (targets : List (String × FPath)) (st st2 : DLState) (out : MultiOutcome ε),
      download_multiple_urls illust targets cu false ce mt false tr fuel st =
        (st2, out) →
      (∀ q ∈ st.files, q ∈ st2.files) ∧
      ∀ t ∈ targets, t.2 ∈ st2.files ∨ check_exist st2.files t.2 ce = true := by
  intro targets
  induction targets with
  | nil =>
    intro st st2 out hrun
    obtain ⟨hst, -⟩ := Prod.mk.injEq .. ▸ hrun
    subst hst
    exact ⟨fun q hq => hq, by simp⟩
  | cons hd tl ih =>
    intro st st2 out hrun
    obtain ⟨u, p⟩ := hd
    rcases download_one_url_first_try illust u p cu false ce mt (tr u)
      fuel st (hok u) hfuel with ⟨hskip, hreason⟩ | ⟨hout, hpmem, hkeep⟩
    · simp only [download_multiple_urls, hskip] at hrun
      rcases hrest : download_multiple_urls illust tl cu false ce mt false tr fuel st
        with ⟨str, outr⟩
      rw [hrest] at hrun
      have hihx := ih st str outr hrest
      have hst2 : str = st2 := by
        cases outr <;> simp only [Prod.mk.injEq] at hrun
        · exact hrun.1
        · exact hrun.1
        · exact hrun.1
      obtain rfl := hst2
      refine ⟨hihx.1, fun t ht => ?_⟩
      rcases List.mem_cons.mp ht with rfl | htl
      · rcases hreason with hcont | hce
        · have hpm : p ∈ st.files :=
            List.mem_of_elem_eq_true (by simpa using hcont)
          exact Or.inl (hihx.1 _ hpm)
        · exact Or.inr (check_exist_mono _ _ p ce hihx.1 hce)
      · exact hihx.2 t htl
    · rcases hdou : download_one_url illust u p cu false ce mt false (tr u) fuel st
        with ⟨sth, outh⟩
      rw [hdou] at hout hpmem hkeep
      simp only at hout hpmem hkeep
      subst hout
      simp only [download_multiple_urls, hdou] at hrun
      rcases hrest : download_multiple_urls illust tl cu false ce mt false tr fuel sth
        with ⟨str, outr⟩
      rw [hrest] at hrun
      have hihx := ih sth str outr hrest
      have hst2 : str = st2 := by
        cases outr <;> simp only [Prod.mk.injEq] at hrun
        · exact hrun.1
        · exact hrun.1
        · exact hrun.1
      obtain rfl := hst2
      refine ⟨fun q hq => hihx.1 q (hkeep q hq), fun t ht => ?_⟩
      rcases List.mem_cons.mp ht with rfl | htl
      · exact Or.inl (hihx.1 _ hpmem)
      · exact hihx.2 t htl

/-- With replace mode off, a record run against a filesystem where every
target already exists (by path or by base name in a check-exists folder)
skips every page: the state is returned untouched and every outcome tuple
carries `False`. -/
theorem download_multiple_second_run {ε : Type} (illust : Illust) (cu : Bool)
    (ce : List String) (mt : Option Nat) (tr : String → Nat → Option ε)
    (fuel : Nat) :
    ∀ (targets : List (String × FPath)) (st : DLState),
      (∀ t ∈ targets, t.2 ∈ st.files ∨ check_exist st.files t.2 ce = true) →
      download_multiple_urls illust targets cu false ce mt false tr fuel st =
        (st, .ok (targets.map (fun t => (t.1, t.2, false)))) := by
  intro targets
  induction targets with
  | nil => intro st hinv; rfl
  | cons hd tl ih =>
    intro st hinv
    obtain ⟨u, p⟩ := hd
    have hskip : download_one_url illust u p cu false ce mt false (tr u) fuel st =
        (st, .skipped) := by
      rcases hinv (u, p) (List.mem_cons_self _ _) with hpm | hce
      · unfold download_one_url
        rw [if_pos (by simpa using List.elem_eq_true_of_mem hpm)]
      · have hce2 : check_exist st.files p ce = true := hce
        unfold download_one_url
        rw [hce2]
        simp
    have hrest := ih st (fun t ht => hinv t (List.mem_cons_of_mem _ ht))
    simp only [download_multiple_urls, hskip, hrest, List.map_cons]

/-- C4: with replace mode off, a page whose destination already exists —
or whose base name exists in a caller-supplied check-exists folder — is
skipped with the state untouched (in particular, no network call is
made); consequently, re-running the whole-record download on the state
left by a first run (all of whose transfers succeeded on first attempt)
leaves the state untouched — zero network calls — and reports every page
as skipped. -/
theorem C4_skip_exists_and_idempotence {ε : Type} (illust : Illust) (cu : Bool)
    (ce : List String) (mt : Option Nat) (tr : String → Nat → Option ε)
    (fuel : Nat) :
    (∀ (url : String) (path : FPath) (fake : Bool) (tr1 : Nat → Option ε)
        (st : DLState),
      st.files.contains path = true →
      download_one_url illust url path cu false ce mt fake tr1 fuel st =
        (st, .skipped)) ∧
    (∀ (url : String) (path : FPath) (replace fake : Bool)
        (tr1 : Nat → Option ε) (st : DLState),
      check_exist st.files path ce = true →
      download_one_url illust url path cu replace ce mt fake tr1 fuel st =
        (st, .skipped)) ∧
    ((∀ u, tr u 1 = none) → 1 ≤ fuel →
      ∀ (targets : List (String × FPath)) (st0 st1 : DLState)
        (out1 : MultiOutcome ε),
        download_multiple_urls illust targets cu false ce mt false tr fuel st0 =
          (st1, out1) →
        download_multiple_urls illust targets cu false ce mt false tr fuel st1 =
          (st1, .ok (targets.map (fun t => (t.1, t.2, false))))) := by
  refine ⟨?_, ?_, ?_⟩
  · intro url path fake tr1 st h
    unfold download_one_url
    rw [h]
    simp
  · intro url path replace fake tr1 st h
    unfold download_one_url
    rw [h]
    simp
  · intro hok hfuel targets st0 st1 out1 hrun
    exact download_multiple_second_run illust cu ce mt tr fuel targets st1
      (download_multiple_establishes illust cu ce mt tr fuel hok hfuel targets
        st0 st1 out1 hrun).2

/-- C4 witness: a one-page record downloaded once into an empty
filesystem; the second run returns the same state (zero further network
calls) with the page reported skipped. -/
theorem C4_witness :
    download_multiple_urls (Illust.mk 1 .illust 0 [] [])
        [("u", FPath.mk "d" "a.png")] false false [] (some 5) false
        (fun _ _ => (none : Option Nat)) 1
        (DLState.mk [FPath.mk "d" "a.png"] 1 ["u"]) =
      (DLState.mk [FPath.mk "d" "a.png"] 1 ["u"],
       .ok [("u", FPath.mk "d" "a.png", false)]) :=
  (C4_skip_exists_and_idempotence (Illust.mk 1 .illust 0 [] []) false []
      (some 5) (fun _ _ => (none : Option Nat)) 1).2.2
    (fun _ => rfl) (by decide) [("u", FPath.mk "d" "a.png")]
    (DLState.mk [] 0 []) (DLState.mk [FPath.mk "d" "a.png"] 1 ["u"])
    (.ok [("u", FPath.mk "d" "a.png", true)]) (by rfl)

/-- C5: on a fetch of 10 records, the driver pipeline with
`order_by='-total_bookmarks'`, `limit_before=5`, a filter keeping only
image-type records (at least 3 of which survive among the 5 most
popular), and `limit_after=3` enqueues exactly 3 download tasks, in
non-increasing popularity order, tagged with naming orders 1, 2, 3. -/
theorem C5_driver_pipeline_scenario (records : List Illust)
    (_hlen : records.length = 10)
    (himg : 3 ≤ (((order_by illust_attr ['-' :: cs "total_bookmarks"] records).take 5).filter
        (QObj.base (fun r => r.itype == IllustType.illust)).validate).length) :
    (fetch_pipeline illust_attr (some ['-' :: cs "total_bookmarks"]) (some 5)
        (some (QObj.base (fun r => r.itype == IllustType.illust))) none (some 3)
        records).length = 3 ∧
    (fetch_pipeline illust_attr (some ['-' :: cs "total_bookmarks"]) (some 5)
        (some (QObj.base (fun r => r.itype == IllustType.illust))) none (some 3)
        records).map Prod.fst = [1, 2, 3] ∧
    ((fetch_pipeline illust_attr (some ['-' :: cs "total_bookmarks"]) (some 5)
        (some (QObj.base (fun r => r.itype == IllustType.illust))) none (some 3)
        records).map (fun pr => pr.2.total_bookmarks)).Pairwise
      (fun a b => b ≤ a) := by
  have hpipe : fetch_pipeline illust_attr (some ['-' :: cs "total_bookmarks"])
      (some 5) (some (QObj.base (fun r => r.itype == IllustType.illust))) none
      (some 3) records =
      ((((order_by illust_attr ['-' :: cs "total_bookmarks"] records).take 5).filter
        (QObj.base (fun r => r.itype == IllustType.illust)).validate).take 3).enumFrom 1 :=
    rfl
  have hlen3 : ((((order_by illust_attr ['-' :: cs "total_bookmarks"] records).take
      5).filter (QObj.base (fun r => r.itype == IllustType.illust)).validate).take
        3).length = 3 := by
    rw [List.length_take]
    omega
  refine ⟨?_, ?_, ?_⟩
  · rw [hpipe, List.enumFrom_length, hlen3]
  · rw [hpipe, List.enumFrom_map_fst, hlen3]
    rfl
  · rw [hpipe]
    have hsnd : (((((order_by illust_attr ['-' :: cs "total_bookmarks"]
        records).take 5).filter
        (QObj.base (fun r => r.itype == IllustType.illust)).validate).take
          3).enumFrom 1).map (fun pr => pr.2.total_bookmarks) =
        ((((order_by illust_attr ['-' :: cs "total_bookmarks"] records).take
          5).filter
          (QObj.base (fun r => r.itype == IllustType.illust)).validate).take
            3).map (fun r => r.total_bookmarks) := by
      rw [show (fun pr : Nat × Illust => pr.2.total_bookmarks) =
        (fun r : Illust => r.total_bookmarks) ∘ Prod.snd from rfl]
      rw [← List.map_map, List.enumFrom_map_snd]
    rw [hsnd, List.pairwise_map]
    have hkey : illust_attr (splitSEP (cs "total_bookmarks")) =
        fun r => r.total_bookmarks := by
      funext r
      rfl
    have hsorted : (order_by illust_attr ['-' :: cs "total_bookmarks"]
        records).Pairwise (fun a b => b.total_bookmarks ≤ a.total_bookmarks) := by
      have hdesc : order_by illust_attr ['-' :: cs "total_bookmarks"] records =
          pysort (illust_attr (splitSEP (cs "total_bookmarks"))) true records :=
        rfl
      rw [hdesc, hkey]
      exact pysort_sorted_desc (fun r => r.total_bookmarks) records
    exact ((hsorted.sublist (List.take_sublist 5 _)).sublist
      (List.filter_sublist _)).sublist (List.take_sublist 3 _)

/-- C5 witness: ten image records with distinct popularities; the
pipeline enqueues 3 tasks, tagged 1, 2, 3, in non-increasing popularity
order. -/
theorem C5_witness :
    (fetch_pipeline illust_attr (some ['-' :: cs "total_bookmarks"]) (some 5)
        (some (QObj.base (fun r => r.itype == IllustType.illust))) none (some 3)
        [Illust.mk 1 .illust 3 [] [], Illust.mk 2 .illust 7 [] [],
          Illust.mk 3 .illust 1 [] [], Illust.mk 4 .illust 9 [] [],
          Illust.mk 5 .illust 5 [] [], Illust.mk 6 .illust 2 [] [],
          Illust.mk 7 .illust 8 [] [], Illust.mk 8 .illust 6 [] [],
          Illust.mk 9 .illust 10 [] [], Illust.mk 10 .illust 4 [] []]).length = 3 ∧
    (fetch_pipeline illust_attr (some ['-' :: cs "total_bookmarks"]) (some 5)
        (some (QObj.base (fun r => r.itype == IllustType.illust))) none (some 3)
        [Illust.mk 1 .illust 3 [] [], Illust.mk 2 .illust 7 [] [],
          Illust.mk 3 .illust 1 [] [], Illust.mk 4 .illust 9 [] [],
          Illust.mk 5 .illust 5 [] [], Illust.mk 6 .illust 2 [] [],
          Illust.mk 7 .illust 8 [] [], Illust.mk 8 .illust 6 [] [],
          Illust.mk 9 .illust 10 [] [], Illust.mk 10 .illust 4 [] []]).map
      Prod.fst = [1, 2, 3] ∧
    ((fetch_pipeline illust_attr (some ['-' :: cs "total_bookmarks"]) (some 5)
        (some (QObj.base (fun r => r.itype == IllustType.illust))) none (some 3)
        [Illust.mk 1 .illust 3 [] [], Illust.mk 2 .illust 7 [] [],
          Illust.mk 3 .illust 1 [] [], Illust.mk 4 .illust 9 [] [],
          Illust.mk 5 .illust 5 [] [], Illust.mk 6 .illust 2 [] [],
          Illust.mk 7 .illust 8 [] [], Illust.mk 8 .illust 6 [] [],
          Illust.mk 9 .illust 10 [] [], Illust.mk 10 .illust 4 [] []]).map
      (fun pr => pr.2.total_bookmarks)).Pairwise (fun a b => b ≤ a) :=
  C5_driver_pipeline_scenario
    [Illust.mk 1 .illust 3 [] [], Illust.mk 2 .illust 7 [] [],
      Illust.mk 3 .illust 1 [] [], Illust.mk 4 .illust 9 [] [],
      Illust.mk 5 .illust 5 [] [], Illust.mk 6 .illust 2 [] [],
      Illust.mk 7 .illust 8 [] [], Illust.mk 8 .illust 6 [] [],
      Illust.mk 9 .illust 10 [] [], Illust.mk 10 .illust 4 [] []]
    (by decide) (by decide)
